import Mathlib

/-!
Shallow embedding of `src/analyzer.py` (Group9B/history_timeline_analyzer).

The script enriches a table of historical events with named entities
extracted by a pre-trained spaCy pipeline and draws a timeline with
matplotlib.  The spaCy pipeline is an external, opaque oracle: it is
modelled as a parameter `classify : String → List SpacyEnt` giving, for a
text, the sequence `doc.ents` of (span text, label) pairs.  Likewise the
strict date parser `pd.to_datetime` is modelled as a parameter
`strict : String → Option PDate`; the claims about `safe_date_conversion`
are all conditional on that parse failing, so no behaviour of the parser
itself is assumed.  Machine integers do not occur (Python integers are
unbounded), so `Nat`/`Int` are exact.
-/

/-- ASCII whitespace recognised by Python's `str.split()` and by
`int(str)` stripping (space, tab, newline, carriage return, vertical tab,
form feed).  Non-ASCII whitespace is out of scope for the inputs
considered here. -/
def pyWs (c : Char) : Bool :=
  c = ' ' || c = '\t' || c = '\n' || c = '\r' || c = '\x0b' || c = '\x0c'

/-- Strip leading and trailing Python whitespace, as `int(str)` does. -/
def pyStripChars (l : List Char) : List Char :=
  ((l.dropWhile pyWs).reverse.dropWhile pyWs).reverse

/-- Continuation of `pyDigits`: digits already begun, underscores allowed
only between two digits (Python decimal integer literal accepted by
`int`). -/
def pyDigitsAux : List Char → Nat → Option Nat
  | [], acc => some acc
  | '_' :: c :: cs, acc =>
    if c.isDigit then pyDigitsAux cs (10 * acc + (c.toNat - 48)) else none
  | ['_'], _ => none
  | c :: cs, acc =>
    if c.isDigit then pyDigitsAux cs (10 * acc + (c.toNat - 48)) else none

/-- Parse a nonempty run of decimal digits (with Python's optional single
underscores between digits). -/
def pyDigits : List Char → Option Nat
  | [] => none
  | c :: cs => if c.isDigit then pyDigitsAux cs (c.toNat - 48) else none

/-- Python's `int(s)` on a string: strip whitespace, optional sign, then a
decimal digit run; `none` models the `ValueError` it raises otherwise. -/
def pyInt (s : String) : Option Int :=
  match pyStripChars s.data with
  | '+' :: rest => (pyDigits rest).map (fun n => (n : Int))
  | '-' :: rest => (pyDigits rest).map (fun n => -(n : Int))
  | l => (pyDigits l).map (fun n => (n : Int))

/-- Python's `s.split('-')[0]`: the substring before the first `'-'`
(the whole string when there is no `'-'`). -/
def before_first_dash (s : String) : String :=
  ⟨s.data.takeWhile (fun c => c != '-')⟩

/-- Token counter behind `str.split()`: number of maximal nonempty runs of
non-whitespace characters.  The boolean records whether we are inside a
run. -/
def pySplitCount : List Char → Bool → Nat
  | [], _ => 0
  | c :: cs, inTok =>
    if pyWs c then pySplitCount cs false
    else (if inTok then 0 else 1) + pySplitCount cs true

/-- Modelled from the spec: the per-record `word_count` statistic
("the number of whitespace-delimited tokens in `text` (a simple split)",
i.e. `len(text.split())`).  The statistic is described in the spec's
Entity Aggregator contract but the variant of the script under `src/`
does not compute it. -/
def word_count (s : String) : Nat :=
  pySplitCount s.data false

/-- One element of `doc.ents` as the script consumes it: the surface text
of the span (`ent.text`) and its label (`ent.label_`). -/
structure SpacyEnt where
  text : String
  label : String
deriving DecidableEq, Repr

/-- The `entities` dictionary of `analyze_event_description`: one Python
`set` per category.  The script converts the sets to lists at the end
(`list(set)`, order unspecified); the sets themselves are the semantic
content and are modelled as `Finset String`. -/
structure EntitySets where
  people : Finset String
  locations : Finset String
  organizations : Finset String
deriving DecidableEq

/-- Body of the `for ent in doc.ents` loop: route the span's text into the
set selected by its label (`PERSON`; `GPE` or `LOC`; `ORG`), ignore any
other label. -/
def bucket (acc : EntitySets) (e : SpacyEnt) : EntitySets :=
  if e.label = "PERSON" then
    { acc with people := insert e.text acc.people }
  else if e.label = "GPE" ∨ e.label = "LOC" then
    { acc with locations := insert e.text acc.locations }
  else if e.label = "ORG" then
    { acc with organizations := insert e.text acc.organizations }
  else acc

/-- The script's `analyze_event_description`: run the classifier on the
text and fold its entities into the three category sets. -/
def analyze_event_description (classify : String → List SpacyEnt) (text : String) :
    EntitySets :=
  (classify text).foldl bucket ⟨∅, ∅, ∅⟩

/-- The spec's `ExtractedEntities` value object: the three category sets
plus the derived statistics. -/
structure ExtractedEntities where
  people : Finset String
  locations : Finset String
  organizations : Finset String
  word_count : Nat
  unique_entity_count : Nat
deriving DecidableEq

/-- Modelled from the spec: the Entity Aggregator's `aggregate` contract.
The category sets come from `analyze_event_description` (the source);
`word_count` and `unique_entity_count` ("the size of the union of the
three category sets") are described in the spec but not computed by the
script variant under `src/`. -/
def aggregate (classify : String → List SpacyEnt) (text : String) :
    ExtractedEntities :=
  let e := analyze_event_description classify text
  { people := e.people
    locations := e.locations
    organizations := e.organizations
    word_count := word_count text
    unique_entity_count := (e.people ∪ e.locations ∪ e.organizations).card }

/-- One row of the input dataset, before enrichment. -/
structure EventRecord where
  date : String
  event : String
  description : String
deriving DecidableEq, Repr

/-- A row after enrichment: the original record plus the appended fields
(`df["People"]`, `df["Locations"]`, `df["Organizations"]` in the script;
`WordCount` and `UniqueEntityCount` per the spec). -/
structure EnrichedRecord where
  base : EventRecord
  People : Finset String
  Locations : Finset String
  Organizations : Finset String
  WordCount : Nat
  UniqueEntityCount : Nat
deriving DecidableEq

/-- Per-record enrichment: the script's loop body stores the aggregator's
category lists on the row; `WordCount`/`UniqueEntityCount` are modelled
from the spec (not computed by the variant under `src/`). -/
def enrich_record (classify : String → List SpacyEnt) (r : EventRecord) :
    EnrichedRecord :=
  let a := aggregate classify r.description
  { base := r
    People := a.people
    Locations := a.locations
    Organizations := a.organizations
    WordCount := a.word_count
    UniqueEntityCount := a.unique_entity_count }

/-- The Dataset Enricher's pass over all rows, in input order. -/
def enrich_records (classify : String → List SpacyEnt) (rs : List EventRecord) :
    List EnrichedRecord :=
  rs.map (enrich_record classify)

/-- Modelled from the spec: the per-category corpus rollup, "unioning each
category's sets across all records" (set union, not concatenation).  The
rollup is in the spec's Dataset Enricher contract but not in the script
variant under `src/`. -/
def corpus_people (classify : String → List SpacyEnt) (rs : List EventRecord) :
    Finset String :=
  rs.foldl (fun acc r => acc ∪ (analyze_event_description classify r.description).people) ∅

/-- Modelled from the spec: corpus rollup of the locations sets. -/
def corpus_locations (classify : String → List SpacyEnt) (rs : List EventRecord) :
    Finset String :=
  rs.foldl (fun acc r => acc ∪ (analyze_event_description classify r.description).locations) ∅

/-- Modelled from the spec: corpus rollup of the organizations sets. -/
def corpus_organizations (classify : String → List SpacyEnt) (rs : List EventRecord) :
    Finset String :=
  rs.foldl (fun acc r => acc ∪ (analyze_event_description classify r.description).organizations) ∅

/-- The spec's `CorpusInsights`: counts of distinct entities per category
across the whole dataset. -/
structure CorpusInsights where
  distinct_people : Nat
  distinct_locations : Nat
  distinct_organizations : Nat
deriving DecidableEq, Repr

/-- Modelled from the spec: `CorpusInsights` computed from the corpus
unions. -/
def corpus_insights (classify : String → List SpacyEnt) (rs : List EventRecord) :
    CorpusInsights :=
  { distinct_people := (corpus_people classify rs).card
    distinct_locations := (corpus_locations classify rs).card
    distinct_organizations := (corpus_organizations classify rs).card }

/-- A calendar date as carried by a `pandas.Timestamp` for this script's
purposes (the script only ever constructs or compares dates).  With
pandas ≥ 2.0 the `Timestamp` string constructor infers a coarser unit for
values outside nanosecond range, so `Timestamp(f'{year}-01-01')` is total
on the years reachable here; it is modelled as the plain triple. -/
structure PDate where
  year : Int
  month : Nat
  day : Nat
deriving DecidableEq, Repr

instance : Inhabited PDate := ⟨⟨1970, 1, 1⟩⟩

/-- Chronological strict order on dates (lexicographic on
year, month, day) — the order `sort_values` sorts `plot_date` by. -/
def dateLt (a b : PDate) : Prop :=
  a.year < b.year ∨
    (a.year = b.year ∧ (a.month < b.month ∨ (a.month = b.month ∧ a.day < b.day)))

instance : DecidableRel dateLt := fun a b => by
  unfold dateLt; infer_instance

/-- Boolean form of `dateLt`, used by the executable sort. -/
def dateLtB (a b : PDate) : Bool :=
  decide (dateLt a b)

/-- The script's `safe_date_conversion`: try the strict parse
(`pd.to_datetime`, an external parameter here); on failure take the
substring before the first `'-'`, parse it with `int`, clamp years below
1677 to 1677 and build January 1st of that year.  `none` models an
uncaught exception (`int` raising inside the bare `except:` block). -/
def safe_date_conversion (strict : String → Option PDate) (date_str : String) :
    Option PDate :=
  match strict date_str with
  | some d => some d
  | none =>
    match pyInt (before_first_dash date_str) with
    | some year => some ⟨if year < 1677 then 1677 else year, 1, 1⟩
    | none => none

/-!
`df.sort_values(by='plot_date')` sorts with pandas' default
`kind='quicksort'`, which delegates to numpy's `argsort` introsort
(`npysort/quicksort.c.src`, `aquicksort_`): median-of-three pivoting with
a Hoare-style scan, an explicit segment stack, insertion sort for
segments of at most `SMALL_QUICKSORT = 15` gaps (16 elements), and a
heapsort fallback once the depth limit `2 * msb(n)` is exhausted.  That
algorithm is embedded below on an index list `tosort` with a key lookup
`kf` (`v[*p]` in the C code); loops carry explicit fuel large enough for
every actual run, returning the current state if it ever ran out.  This
sort is NOT stable.  (No current environment was available to rerun
numpy; the embedding follows the C source of the classic scalar path,
which is also the fallback of SIMD-enabled builds.)
-/

/-- Swap the index entries at positions `i` and `j` (`INTP_SWAP`). -/
def lswap (t : List Nat) (i j : Nat) : List Nat :=
  (t.set i (t.getD j 0)).set j (t.getD i 0)

/-- Key of the entry at position `i`: `v[tosort[i]]`. -/
def kv (kf : Nat → PDate) (t : List Nat) (i : Nat) : PDate :=
  kf (t.getD i 0)

/-- The scan `do ++pi; while (LT(v[*pi], vp))`, started at the already
incremented position: first `k ≥ start` whose key is not below the
pivot. -/
def scanUp (kf : Nat → PDate) (t : List Nat) (vp : PDate) : Nat → Nat → Nat
  | 0, k => k
  | f + 1, k => if dateLtB (kv kf t k) vp then scanUp kf t vp f (k + 1) else k

/-- The scan `do --pj; while (LT(vp, v[*pj]))`, started at the already
decremented position. -/
def scanDown (kf : Nat → PDate) (t : List Nat) (vp : PDate) : Nat → Nat → Nat
  | 0, k => k
  | f + 1, k => if dateLtB vp (kv kf t k) then scanDown kf t vp f (k - 1) else k

/-- The Hoare partition loop: advance both scans, stop when they cross
(`pi >= pj`), otherwise swap and continue.  Returns the final array and
`pi`. -/
def partLoop (kf : Nat → PDate) : Nat → List Nat → PDate → Nat → Nat → List Nat × Nat
  | 0, t, _, pi, _ => (t, pi)
  | f + 1, t, vp, pi, pj =>
    let pi2 := scanUp kf t vp t.length (pi + 1)
    let pj2 := scanDown kf t vp t.length (pj - 1)
    if pj2 ≤ pi2 then (t, pi2)
    else partLoop kf f (lswap t pi2 pj2) vp pi2 pj2

/-- One quicksort partition of the segment `[pl, pr]`: median-of-three of
positions `pl`, `pm`, `pr`, pivot parked at `pr - 1`, Hoare scan, pivot
swapped back to the crossing point `pi`. -/
def partitionStep (kf : Nat → PDate) (t : List Nat) (pl pr : Nat) : List Nat × Nat :=
  let pm := pl + (pr - pl) / 2
  let t1 := if dateLtB (kv kf t pm) (kv kf t pl) then lswap t pm pl else t
  let t2 := if dateLtB (kv kf t1 pr) (kv kf t1 pm) then lswap t1 pr pm else t1
  let t3 := if dateLtB (kv kf t2 pm) (kv kf t2 pl) then lswap t2 pm pl else t2
  let vp := kv kf t3 pm
  let t4 := lswap t3 pm (pr - 1)
  let s := partLoop kf (pr + 1) t4 vp pl (pr - 1)
  (lswap s.1 s.2 (pr - 1), s.2)

/-- The inner shift of the insertion sort, walking the sorted prefix from
its right end (`while (pj > pl && LT(vp, v[*pk])) *pj-- = *pk--`): the
prefix is kept in reversed order so the walk is structural; entries with
a key strictly above `vi`'s stay behind it, and `vi` lands at the first
entry whose key is not above. -/
def shiftInsRev (kf : Nat → PDate) (vi : Nat) : List Nat → List Nat
  | [] => [vi]
  | j :: js => if dateLtB (kf vi) (kf j) then j :: shiftInsRev kf vi js else vi :: j :: js

/-- Insertion sort of a run of index entries, left to right, as the C
insertion loop performs on a segment (the reversed accumulator is turned
back around at the end). -/
def cInsertionSort (kf : Nat → PDate) (l : List Nat) : List Nat :=
  (l.foldl (fun acc vi => shiftInsRev kf vi acc) []).reverse

/-- In-place insertion sort of the segment `[pl, pr]` of `tosort`,
rendered as: leave the outside untouched, sort the slice. -/
def insSortSeg (kf : Nat → PDate) (t : List Nat) (pl pr : Nat) : List Nat :=
  t.take pl ++ cInsertionSort kf ((t.drop pl).take (pr + 1 - pl)) ++ t.drop (pr + 1)

/-- One-based access into the heapsort's segment (`a = tosort - 1`). -/
def hGet (t : List Nat) (pl i : Nat) : Nat :=
  t.getD (pl + i - 1) 0

/-- One-based update into the heapsort's segment. -/
def hSet (t : List Nat) (pl i v : Nat) : List Nat :=
  t.set (pl + i - 1) v

/-- The sift-down loop shared by `aheapsort_`'s two phases; writes the
saved entry `tmp` at its final slot. -/
def siftDown (kf : Nat → PDate) : Nat → List Nat → Nat → Nat → Nat → Nat → Nat → List Nat
  | 0, t, pl, tmp, i, _, _ => hSet t pl i tmp
  | f + 1, t, pl, tmp, i, j, n =>
    if j ≤ n then
      let j2 := if j < n ∧ dateLtB (kf (hGet t pl j)) (kf (hGet t pl (j + 1))) then j + 1 else j
      if dateLtB (kf tmp) (kf (hGet t pl j2)) then
        siftDown kf f (hSet t pl i (hGet t pl j2)) pl tmp j2 (2 * j2) n
      else hSet t pl i tmp
    else hSet t pl i tmp

/-- Heapify phase of `aheapsort_`: `for (l = n>>1; l > 0; --l)`. -/
def heapifyLoop (kf : Nat → PDate) (pl n : Nat) : Nat → List Nat → List Nat
  | 0, t => t
  | l + 1, t =>
    heapifyLoop kf pl n l
      (siftDown kf (n + 1) t pl (hGet t pl (l + 1)) (l + 1) (2 * (l + 1)) n)

/-- Extraction phase of `aheapsort_`: swap the root out, shrink, sift. -/
def extractLoop (kf : Nat → PDate) (pl : Nat) : Nat → List Nat → List Nat
  | 0, t => t
  | 1, t => t
  | m + 2, t =>
    let tmp := hGet t pl (m + 2)
    let t1 := hSet t pl (m + 2) (hGet t pl 1)
    let t2 := siftDown kf (m + 2) t1 pl tmp 1 2 (m + 1)
    extractLoop kf pl (m + 1) t2

/-- numpy's `aheapsort_` applied to the segment `[pl, pr]` (the depth
limit fallback of the introsort). -/
def aheapsortSeg (kf : Nat → PDate) (t : List Nat) (pl pr : Nat) : List Nat :=
  let n := pr + 1 - pl
  extractLoop kf pl n (heapifyLoop kf pl n (n / 2) t)

/-- The outer loop of `aquicksort_`: partition while the segment has more
than `SMALL_QUICKSORT = 15` gaps (heapsort when the depth budget is
spent, the check `depth_limit-- < 0` decrementing either way), push the
larger half, recurse on the smaller; otherwise insertion sort the segment
and pop the next one from the stack. -/
def qsOuter (kf : Nat → PDate) : Nat → List Nat → List (Nat × Nat) → Nat → Nat → Int → List Nat
  | 0, t, _, _, _, _ => t
  | f + 1, t, stack, pl, pr, depth =>
    if pr - pl > 15 then
      if depth < 0 then
        let t1 := aheapsortSeg kf t pl pr
        match stack with
        | [] => t1
        | (pl2, pr2) :: st => qsOuter kf f t1 st pl2 pr2 (depth - 1)
      else
        let s := partitionStep kf t pl pr
        if s.2 - pl < pr - s.2 then
          qsOuter kf f s.1 ((s.2 + 1, pr) :: stack) pl (s.2 - 1) (depth - 1)
        else
          qsOuter kf f s.1 ((pl, s.2 - 1) :: stack) (s.2 + 1) pr (depth - 1)
    else
      let t1 := insSortSeg kf t pl pr
      match stack with
      | [] => t1
      | (pl2, pr2) :: st => qsOuter kf f t1 st pl2 pr2 depth

/-- numpy `argsort(values, kind='quicksort')` on keys `kf 0 … kf (n-1)`:
the permutation of `[0, n)` the introsort produces.  The fuel `2*n + 2`
covers every run (each partition splits a segment, so there are fewer
than `n` partitions and at most `n + 1` insertion/pop steps). -/
def np_argsort (kf : Nat → PDate) (n : Nat) : List Nat :=
  qsOuter kf (2 * n + 2) (List.range n) [] 0 (n - 1) (2 * (Nat.log2 n))

/-- The script's fixed offset palette `base_levels = [-5, 5, -3, 3, -1, 1]`. -/
def base_levels : List Int := [-5, 5, -3, 3, -1, 1]

/-- The script's
`levels = (base_levels * (len(df) // len(base_levels) + 1))[:len(df)]`. -/
def levels (n : Nat) : List Int :=
  (List.flatten (List.replicate (n / 6 + 1) base_levels)).take n

/-- The script's label truncation
`event_text if len(event_text) < 30 else event_text[:27] + "..."`. -/
def pyLabelOf (title : String) : String :=
  if title.data.length < 30 then title else String.mk (title.data.take 27) ++ "..."

/-- One timeline datum as the plotting block consumes it at sorted
position `i`: the normalized date, the source title, the stem offset
`levels[i]` and the annotation label. -/
structure TimelinePoint where
  plot_date : PDate
  title : String
  vertical_offset : Int
  display_label : String
deriving DecidableEq, Repr

/-- `df['plot_date'] = df['date'].apply(safe_date_conversion)`: all rows
converted, in input order; `none` when some row raises (which aborts the
script). -/
def plotDates (strict : String → Option PDate) (events : List (String × String)) :
    Option (List (PDate × String)) :=
  events.mapM (fun e => (safe_date_conversion strict e.1).map (fun d => (d, e.2)))

/-- Key lookup into the converted rows: the `plot_date` of row `i`. -/
def dkey (dated : List (PDate × String)) (i : Nat) : PDate :=
  (dated.getD i default).1

/-- The permutation `df.sort_values(by='plot_date')` applies to the rows:
numpy argsort of the `plot_date` column. -/
def timelineIdx (dated : List (PDate × String)) : List Nat :=
  np_argsort (dkey dated) dated.length

/-- The Timeline Layout Engine: convert the dates, sort the rows by
`plot_date` (pandas default quicksort), then walk the sorted rows
assigning `levels[i]` and the truncated label. -/
def timeline (strict : String → Option PDate) (events : List (String × String)) :
    Option (List TimelinePoint) :=
  (plotDates strict events).map (fun dated =>
    let n := dated.length
    let ord := timelineIdx dated
    let lv := levels n
    (List.range n).map (fun i =>
      let r := dated.getD (ord.getD i 0) default
      { plot_date := r.1
        title := r.2
        vertical_offset := lv.getD i 0
        display_label := pyLabelOf r.2 }))

instance : Inhabited TimelinePoint := ⟨⟨default, "", 0, ""⟩⟩

/-- The target order of a stable sort by date: strictly earlier date, or
equal date with the original position earlier.  A linear strict order on
positions carrying distinct indices. -/
def idxLex (kf : Nat → PDate) (i j : Nat) : Prop :=
  dateLt (kf i) (kf j) ∨ (kf i = kf j ∧ i < j)

/-- A strict parser that always fails, the simplest instantiation of the
external `pd.to_datetime` parameter (every date then goes through the
fallback). -/
def strict0 : String → Option PDate := fun _ => none

/-- A classifier that finds no entities in any text, the simplest
instantiation of the external spaCy oracle. -/
def classify0 : String → List SpacyEnt := fun _ => []

/-- A table-driven classifier for the spec's end-to-end scenario texts. -/
def classify1 : String → List SpacyEnt := fun t =>
  if t = "Napoleon invaded Russia in 1812." then
    [⟨"Napoleon", "PERSON"⟩, ⟨"Russia", "GPE"⟩]
  else if t = "The United Nations was founded in New York." then
    [⟨"the United Nations", "ORG"⟩, ⟨"New York", "GPE"⟩]
  else []

/-- Three records of the spec's end-to-end scenario. -/
def recsA : List EventRecord :=
  [⟨"1812", "Invasion", "Napoleon invaded Russia in 1812."⟩,
   ⟨"1850", "Blank", ""⟩,
   ⟨"1945", "Founding", "The United Nations was founded in New York."⟩]

/-- The same records in another order. -/
def recsB : List EventRecord :=
  [⟨"1945", "Founding", "The United Nations was founded in New York."⟩,
   ⟨"1812", "Invasion", "Napoleon invaded Russia in 1812."⟩,
   ⟨"1850", "Blank", ""⟩]

/-- Two events with the same date. -/
def events2 : List (String × String) := [("1850", "B"), ("1850", "A")]

/-- `events2` after date conversion. -/
def dated2 : List (PDate × String) := [(⟨1850, 1, 1⟩, "B"), (⟨1850, 1, 1⟩, "A")]

/-- The layout of `events2`. -/
def pts2 : List TimelinePoint :=
  [⟨⟨1850, 1, 1⟩, "B", -5, "B"⟩, ⟨⟨1850, 1, 1⟩, "A", 5, "A"⟩]

/-- Eight events with the same date. -/
def events8 : List (String × String) :=
  [("1850", "A"), ("1850", "B"), ("1850", "C"), ("1850", "D"),
   ("1850", "E"), ("1850", "F"), ("1850", "G"), ("1850", "H")]

/-- The layout of `events8`: below 17 elements the sort is the (stable)
insertion sort, so the rows stay in input order and the offsets cycle
through the palette. -/
def pts8 : List TimelinePoint :=
  [⟨⟨1850, 1, 1⟩, "A", -5, "A"⟩, ⟨⟨1850, 1, 1⟩, "B", 5, "B"⟩,
   ⟨⟨1850, 1, 1⟩, "C", -3, "C"⟩, ⟨⟨1850, 1, 1⟩, "D", 3, "D"⟩,
   ⟨⟨1850, 1, 1⟩, "E", -1, "E"⟩, ⟨⟨1850, 1, 1⟩, "F", 1, "F"⟩,
   ⟨⟨1850, 1, 1⟩, "G", -5, "G"⟩, ⟨⟨1850, 1, 1⟩, "H", 5, "H"⟩]

/-- Seventeen events sharing one date: the first input size on which
`aquicksort_` enters its partitioning branch instead of going straight to
the stable insertion sort. -/
def ex17 : List (String × String) :=
  [("1850", "A"), ("1850", "B"), ("1850", "C"), ("1850", "D"),
   ("1850", "E"), ("1850", "F"), ("1850", "G"), ("1850", "H"),
   ("1850", "I"), ("1850", "J"), ("1850", "K"), ("1850", "L"),
   ("1850", "M"), ("1850", "N"), ("1850", "O"), ("1850", "P"),
   ("1850", "Q")]

/-- A 20-character title. -/
def title20 : String := "ABCDEFGHIJKLMNOPQRST"

/-- A 30-character title. -/
def title30 : String := "ABCDEFGHIJKLMNOPQRSTUVWXYZ1234"

/-- A 35-character title. -/
def title35 : String := "ABCDEFGHIJKLMNOPQRSTUVWXYZ123456789"

/-!  Theorems.  -/

theorem dateLt_irrefl (a : PDate) : ¬ dateLt a a := by
  unfold dateLt; omega

theorem dateLt_asymm {a b : PDate} (h : dateLt a b) : ¬ dateLt b a := by
  unfold dateLt at *; omega

theorem dateLt_trans {a b c : PDate} (h1 : dateLt a b) (h2 : dateLt b c) : dateLt a c := by
  unfold dateLt at *; omega

theorem dateLt_connex {a b : PDate} (h1 : ¬ dateLt a b) (h2 : ¬ dateLt b a) : a = b := by
  obtain ⟨ay, am, ad⟩ := a
  obtain ⟨by', bm, bd⟩ := b
  simp only [dateLt, PDate.mk.injEq] at *
  omega

theorem dateLtB_iff {a b : PDate} : dateLtB a b = true ↔ dateLt a b := by
  simp [dateLtB]

/-- C3: when the strict parse fails, `safe_date_conversion` builds
January 1st of the integer value of the substring before the first dash,
clamped below at 1677; in particular a failing `"1200-03-15"` yields the
clamped minimum `1677-01-01` and a failing `"1850"` yields
`1850-01-01`. -/
theorem C3_date_fallback (strict : String → Option PDate) (s : String) (y : Int)
    (hfail : strict s = none) (hy : pyInt (before_first_dash s) = some y) :
    safe_date_conversion strict s = some ⟨if y < 1677 then 1677 else y, 1, 1⟩ ∧
    (strict "1200-03-15" = none →
      safe_date_conversion strict "1200-03-15" = some ⟨1677, 1, 1⟩) ∧
    (strict "1850" = none →
      safe_date_conversion strict "1850" = some ⟨1850, 1, 1⟩) := by
  refine ⟨?_, ?_, ?_⟩
  · unfold safe_date_conversion
    rw [hfail, hy]
  · intro h
    unfold safe_date_conversion
    rw [h]
    decide
  · intro h
    unfold safe_date_conversion
    rw [h]
    decide

/-- Witness for C3 at the concrete inputs of the claim. -/
theorem C3_date_fallback_witness :
    safe_date_conversion strict0 "1200-03-15" = some ⟨1677, 1, 1⟩ ∧
    safe_date_conversion strict0 "1850" = some ⟨1850, 1, 1⟩ := by
  have h := C3_date_fallback strict0 "1200-03-15" 1200 rfl (by decide)
  exact ⟨h.2.1 rfl, h.2.2 rfl⟩

/-- C9: the date fallback is partial — when the strict parse fails and the
substring before the first dash is not accepted by `int`, the conversion
raises (returns `none`); it returns a date only when that substring
parses as an integer. -/
theorem C9_fallback_domain (strict : String → Option PDate) (s : String)
    (hfail : strict s = none) :
    (pyInt (before_first_dash s) = none → safe_date_conversion strict s = none) ∧
    (∀ d, safe_date_conversion strict s = some d →
      ∃ y, pyInt (before_first_dash s) = some y) := by
  constructor
  · intro h
    unfold safe_date_conversion
    rw [hfail, h]
  · intro d hd
    unfold safe_date_conversion at hd
    rw [hfail] at hd
    cases hp : pyInt (before_first_dash s) with
    | none => rw [hp] at hd; cases hd
    | some y => exact ⟨y, rfl⟩

/-- Witness for C9: `"circa 1200"` and the empty string both raise. -/
theorem C9_fallback_domain_witness :
    safe_date_conversion strict0 "circa 1200" = none ∧
    safe_date_conversion strict0 "" = none :=
  ⟨(C9_fallback_domain strict0 "circa 1200" rfl).1 (by decide),
   (C9_fallback_domain strict0 "" rfl).1 (by decide)⟩

/-- C10: every date produced by the fallback branch is January 1st of a
year at least 1677, hence never earlier than 1677-01-01. -/
theorem C10_fallback_bounds (strict : String → Option PDate) (s : String) (d : PDate)
    (hfail : strict s = none) (h : safe_date_conversion strict s = some d) :
    d.month = 1 ∧ d.day = 1 ∧ 1677 ≤ d.year ∧ ¬ dateLt d ⟨1677, 1, 1⟩ := by
  unfold safe_date_conversion at h
  rw [hfail] at h
  cases hp : pyInt (before_first_dash s) with
  | none => rw [hp] at h; cases h
  | some y =>
    rw [hp] at h
    cases h
    refine ⟨rfl, rfl, ?_, ?_⟩
    · by_cases hy : y < 1677
      · simp [hy]
      · simp [hy]; omega
    · unfold dateLt
      by_cases hy : y < 1677
      · simp [hy]
      · simp [hy]

/-- Witness for C10 on the fallback result of `"1200-03-15"`. -/
theorem C10_fallback_bounds_witness :
    (⟨1677, 1, 1⟩ : PDate).month = 1 ∧ (⟨1677, 1, 1⟩ : PDate).day = 1 ∧
    1677 ≤ (⟨1677, 1, 1⟩ : PDate).year ∧
    ¬ dateLt ⟨1677, 1, 1⟩ ⟨1677, 1, 1⟩ :=
  C10_fallback_bounds strict0 "1200-03-15" ⟨1677, 1, 1⟩ rfl (by decide)

theorem bucket_mem_people (l : List SpacyEnt) (a : EntitySets) (s : String) :
    s ∈ (l.foldl bucket a).people ↔
      s ∈ a.people ∨ ∃ e ∈ l, e.label = "PERSON" ∧ e.text = s := by
  induction l generalizing a with
  | nil => simp
  | cons e l ih =>
    rw [List.foldl_cons, ih]
    unfold bucket
    split_ifs with h1 h2 h3 <;>
      simp only [Finset.mem_insert, List.mem_cons] <;>
      aesop

theorem bucket_mem_locations (l : List SpacyEnt) (a : EntitySets) (s : String) :
    s ∈ (l.foldl bucket a).locations ↔
      s ∈ a.locations ∨ ∃ e ∈ l, (e.label = "GPE" ∨ e.label = "LOC") ∧ e.text = s := by
  induction l generalizing a with
  | nil => simp
  | cons e l ih =>
    rw [List.foldl_cons, ih]
    unfold bucket
    split_ifs with h1 h2 h3 <;>
      simp only [Finset.mem_insert, List.mem_cons] <;>
      aesop

theorem bucket_mem_organizations (l : List SpacyEnt) (a : EntitySets) (s : String) :
    s ∈ (l.foldl bucket a).organizations ↔
      s ∈ a.organizations ∨ ∃ e ∈ l, e.label = "ORG" ∧ e.text = s := by
  induction l generalizing a with
  | nil => simp
  | cons e l ih =>
    rw [List.foldl_cons, ih]
    unfold bucket
    split_ifs with h1 h2 h3 <;>
      simp only [Finset.mem_insert, List.mem_cons] <;>
      aesop

/-- C2: a span lands in `people` exactly when some classifier entity with
label `PERSON` has that text, in `locations` exactly for labels `GPE` or
`LOC`, in `organizations` exactly for `ORG`; any other label contributes
to no set, and each set holds pairwise-distinct strings. -/
theorem C2_bucketing (classify : String → List SpacyEnt) (text : String) (s : String) :
    (s ∈ (analyze_event_description classify text).people ↔
      ∃ e ∈ classify text, e.label = "PERSON" ∧ e.text = s) ∧
    (s ∈ (analyze_event_description classify text).locations ↔
      ∃ e ∈ classify text, (e.label = "GPE" ∨ e.label = "LOC") ∧ e.text = s) ∧
    (s ∈ (analyze_event_description classify text).organizations ↔
      ∃ e ∈ classify text, e.label = "ORG" ∧ e.text = s) ∧
    (analyze_event_description classify text).people.val.Nodup ∧
    (analyze_event_description classify text).locations.val.Nodup ∧
    (analyze_event_description classify text).organizations.val.Nodup := by
  refine ⟨?_, ?_, ?_, Finset.nodup _, Finset.nodup _, Finset.nodup _⟩
  · rw [analyze_event_description, bucket_mem_people]
    simp
  · rw [analyze_event_description, bucket_mem_locations]
    simp
  · rw [analyze_event_description, bucket_mem_organizations]
    simp

/-- C1: the aggregator's `word_count` is the whitespace-token count of the
input, `unique_entity_count` is the cardinality of the union of the three
category sets (hence at most the sum of their sizes), and the empty
string (on which the classifier finds nothing) yields zero words and
empty sets. -/
theorem C1_aggregate_stats (classify : String → List SpacyEnt) (text : String) :
    (aggregate classify text).word_count = word_count text ∧
    (aggregate classify text).unique_entity_count =
      ((analyze_event_description classify text).people ∪
        (analyze_event_description classify text).locations ∪
        (analyze_event_description classify text).organizations).card ∧
    (aggregate classify text).unique_entity_count ≤
      (aggregate classify text).people.card + (aggregate classify text).locations.card +
        (aggregate classify text).organizations.card ∧
    (classify "" = [] →
      (aggregate classify "").word_count = 0 ∧
      (aggregate classify "").people = ∅ ∧
      (aggregate classify "").locations = ∅ ∧
      (aggregate classify "").organizations = ∅) := by
  refine ⟨rfl, rfl, ?_, ?_⟩
  · show ((analyze_event_description classify text).people ∪
        (analyze_event_description classify text).locations ∪
        (analyze_event_description classify text).organizations).card ≤ _
    calc ((analyze_event_description classify text).people ∪
          (analyze_event_description classify text).locations ∪
          (analyze_event_description classify text).organizations).card
        ≤ ((analyze_event_description classify text).people ∪
            (analyze_event_description classify text).locations).card +
          (analyze_event_description classify text).organizations.card :=
          Finset.card_union_le _ _
      _ ≤ (analyze_event_description classify text).people.card +
            (analyze_event_description classify text).locations.card +
          (analyze_event_description classify text).organizations.card :=
          Nat.add_le_add_right (Finset.card_union_le _ _) _
  · intro h
    refine ⟨rfl, ?_, ?_, ?_⟩ <;>
      simp [aggregate, analyze_event_description, h]

/-- Witness for C1 at the empty string with the trivial classifier. -/
theorem C1_aggregate_stats_witness :
    (aggregate classify0 "").word_count = 0 ∧
    (aggregate classify0 "").people = ∅ ∧
    (aggregate classify0 "").locations = ∅ ∧
    (aggregate classify0 "").organizations = ∅ :=
  (C1_aggregate_stats classify0 "").2.2.2 rfl

/-- C6 counterexample: a title of exactly 30 characters — its length does
not exceed 30, yet the script truncates it (`len(event_text) < 30` is the
keep-unmodified test), so the claimed threshold is off by one. -/
theorem C6_counterexample :
    title30.data.length ≤ 30 ∧ pyLabelOf title30 ≠ title30 := by
  decide

/-- C6 (amended): the label is the title unmodified exactly when the
title is shorter than 30 characters; from 30 characters on it is the
first 27 characters plus `"..."`. -/
theorem C6_truncation (title : String) :
    (title.data.length < 30 → pyLabelOf title = title) ∧
    (30 ≤ title.data.length →
      pyLabelOf title = String.mk (title.data.take 27) ++ "...") := by
  constructor
  · intro h
    rw [pyLabelOf, if_pos h]
  · intro h
    rw [pyLabelOf, if_neg (by omega)]

/-- Witness for C6: the 35-character title is truncated to its first 27
characters plus the marker; the 20-character title is unmodified. -/
theorem C6_truncation_witness :
    pyLabelOf title35 = String.mk (title35.data.take 27) ++ "..." ∧
    pyLabelOf title20 = title20 :=
  ⟨(C6_truncation title35).2 (by decide), (C6_truncation title20).1 (by decide)⟩

/-- C8: enrichment keeps the whole original record (hence `date`, `event`,
`description` unchanged) and only appends the five derived fields; over a
whole dataset the underlying records are untouched. -/
theorem C8_frame (classify : String → List SpacyEnt) (r : EventRecord)
    (rs : List EventRecord) :
    (enrich_record classify r).base = r ∧
    (enrich_record classify r).base.date = r.date ∧
    (enrich_record classify r).base.event = r.event ∧
    (enrich_record classify r).base.description = r.description ∧
    (enrich_record classify r).People = (aggregate classify r.description).people ∧
    (enrich_record classify r).Locations = (aggregate classify r.description).locations ∧
    (enrich_record classify r).Organizations =
      (aggregate classify r.description).organizations ∧
    (enrich_record classify r).WordCount = (aggregate classify r.description).word_count ∧
    (enrich_record classify r).UniqueEntityCount =
      (aggregate classify r.description).unique_entity_count ∧
    (enrich_records classify rs).map (fun er => er.base) = rs := by
  refine ⟨rfl, rfl, rfl, rfl, rfl, rfl, rfl, rfl, rfl, ?_⟩
  induction rs with
  | nil => rfl
  | cons x xs ih => simp only [enrich_records, List.map_map, List.map_cons] at *
                    exact congrArg (List.cons x) ih

theorem corpus_fold_mem (g : EventRecord → Finset String) (rs : List EventRecord)
    (acc : Finset String) (s : String) :
    s ∈ rs.foldl (fun a r => a ∪ g r) acc ↔ s ∈ acc ∨ ∃ r ∈ rs, s ∈ g r := by
  induction rs generalizing acc with
  | nil => simp
  | cons r rs ih =>
    rw [List.foldl_cons, ih]
    simp only [Finset.mem_union, List.mem_cons]
    aesop

theorem corpus_fold_perm (g : EventRecord → Finset String) {rs1 rs2 : List EventRecord}
    (h : rs1.Perm rs2) :
    rs1.foldl (fun a r => a ∪ g r) ∅ = rs2.foldl (fun a r => a ∪ g r) ∅ :=
  h.foldl_eq' (fun x _ y _ z => Finset.union_right_comm z (g x) (g y)) ∅

/-- C7: `CorpusInsights` is invariant under permuting the records, and
each corpus set is exactly the union of the per-record category sets
(a string is counted once however many records mention it). -/
theorem C7_corpus (classify : String → List SpacyEnt) (rs1 rs2 : List EventRecord)
    (hp : rs1.Perm rs2) :
    corpus_insights classify rs1 = corpus_insights classify rs2 ∧
    (∀ s, s ∈ corpus_people classify rs1 ↔
      ∃ r ∈ rs1, s ∈ (analyze_event_description classify r.description).people) ∧
    (∀ s, s ∈ corpus_locations classify rs1 ↔
      ∃ r ∈ rs1, s ∈ (analyze_event_description classify r.description).locations) ∧
    (∀ s, s ∈ corpus_organizations classify rs1 ↔
      ∃ r ∈ rs1, s ∈ (analyze_event_description classify r.description).organizations) := by
  refine ⟨?_, fun s => ?_, fun s => ?_, fun s => ?_⟩
  · unfold corpus_insights corpus_people corpus_locations corpus_organizations
    rw [corpus_fold_perm _ hp, corpus_fold_perm _ hp, corpus_fold_perm _ hp]
  · simpa [corpus_people] using
      corpus_fold_mem
        (fun r => (analyze_event_description classify r.description).people) rs1 ∅ s
  · simpa [corpus_locations] using
      corpus_fold_mem
        (fun r => (analyze_event_description classify r.description).locations) rs1 ∅ s
  · simpa [corpus_organizations] using
      corpus_fold_mem
        (fun r => (analyze_event_description classify r.description).organizations) rs1 ∅ s

/-- Witness for C7: the end-to-end scenario records permuted. -/
theorem C7_corpus_witness :
    corpus_insights classify1 recsA = corpus_insights classify1 recsB :=
  (C7_corpus classify1 recsA recsB (by decide)).1

theorem flatten_replicate_getD (k i : Nat) (h : i < 6 * k) :
    (List.flatten (List.replicate k base_levels)).getD i 0 = base_levels.getD (i % 6) 0 := by
  induction k generalizing i with
  | zero => omega
  | succ k ih =>
    rw [List.replicate_succ, List.flatten_cons]
    by_cases h6 : i < 6
    · rw [List.getD_append _ _ _ _ (by exact h6), Nat.mod_eq_of_lt h6]
    · rw [List.getD_append_right _ _ _ _ (by simp [base_levels]; omega)]
      show (List.flatten (List.replicate k base_levels)).getD (i - base_levels.length) 0 = _
      have hl : base_levels.length = 6 := rfl
      rw [hl, ih (i - 6) (by omega)]
      congr 1
      omega

theorem levels_getD (n i : Nat) (h : i < n) :
    (levels n).getD i 0 = base_levels.getD (i % 6) 0 := by
  unfold levels
  rw [List.getD_eq_getElem?_getD, List.getElem?_take, if_pos h,
    ← List.getD_eq_getElem?_getD]
  exact flatten_replicate_getD (n / 6 + 1) i (by omega)

/-- C5: in the layout output, the vertical offset at sorted position `i`
is palette entry `i mod 6`; with 8 events the 7th and 8th events reuse
the 1st and 2nd entries (−5 and +5). -/
theorem C5_offsets (strict : String → Option PDate) (events : List (String × String))
    (pts : List TimelinePoint) (i : Nat)
    (ht : timeline strict events = some pts) (hi : i < pts.length) :
    (pts.getD i default).vertical_offset = base_levels.getD (i % 6) 0 ∧
    (pts.length = 8 →
      (pts.getD 6 default).vertical_offset = -5 ∧
      (pts.getD 7 default).vertical_offset = 5 ∧
      (pts.getD 6 default).vertical_offset = (pts.getD 0 default).vertical_offset ∧
      (pts.getD 7 default).vertical_offset = (pts.getD 1 default).vertical_offset) := by
  unfold timeline at ht
  cases hd : plotDates strict events with
  | none => rw [hd] at ht; cases ht
  | some dated =>
    rw [hd] at ht
    simp only [Option.map_some'] at ht
    have hpts := ht.symm  -- pts as the mapped list
    injection ht with ht
    subst ht
    have hlen : ∀ x : List TimelinePoint,
        ((List.range dated.length).map (fun j =>
          let r := dated.getD ((timelineIdx dated).getD j 0) default
          ({ plot_date := r.1, title := r.2,
             vertical_offset := (levels dated.length).getD j 0,
             display_label := pyLabelOf r.2 } : TimelinePoint))).length = dated.length := by
      intro x
      rw [List.length_map, List.length_range]
    have key : ∀ j, j < dated.length →
        ((((List.range dated.length).map (fun j =>
          let r := dated.getD ((timelineIdx dated).getD j 0) default
          ({ plot_date := r.1, title := r.2,
             vertical_offset := (levels dated.length).getD j 0,
             display_label := pyLabelOf r.2 } : TimelinePoint)))).getD j default).vertical_offset =
          base_levels.getD (j % 6) 0 := by
      intro j hj
      rw [List.getD_eq_getElem _ _ (by rw [hlen []]; exact hj), List.getElem_map]
      show ((levels dated.length).getD _ 0 : Int) = _
      rw [List.getElem_range]
      exact levels_getD dated.length j hj
    rw [hlen []] at hi
    refine ⟨key i hi, fun h8 => ?_⟩
    rw [hlen []] at h8
    have k6 := key 6 (by omega)
    have k7 := key 7 (by omega)
    have k0 := key 0 (by omega)
    have k1 := key 1 (by omega)
    refine ⟨?_, ?_, ?_, ?_⟩
    · rw [k6]; rfl
    · rw [k7]; rfl
    · rw [k6, k0]
    · rw [k7, k1]

/-- Witness for C5 on eight equal-dated events, at sorted position 6. -/
theorem C5_offsets_witness :
    (pts8.getD 6 default).vertical_offset = base_levels.getD (6 % 6) 0 ∧
    (pts8.length = 8 →
      (pts8.getD 6 default).vertical_offset = -5 ∧
      (pts8.getD 7 default).vertical_offset = 5 ∧
      (pts8.getD 6 default).vertical_offset = (pts8.getD 0 default).vertical_offset ∧
      (pts8.getD 7 default).vertical_offset = (pts8.getD 1 default).vertical_offset) :=
  C5_offsets strict0 events8 pts8 6 (by decide) (by decide)

theorem idxLex_trans (kf : Nat → PDate) {i j k : Nat}
    (h1 : idxLex kf i j) (h2 : idxLex kf j k) : idxLex kf i k := by
  rcases h1 with h1 | ⟨he1, hi1⟩
  · rcases h2 with h2 | ⟨he2, hi2⟩
    · exact Or.inl (dateLt_trans h1 h2)
    · rw [he2] at h1
      exact Or.inl h1
  · rcases h2 with h2 | ⟨he2, hi2⟩
    · rw [← he1] at h2
      exact Or.inl h2
    · exact Or.inr ⟨he1.trans he2, hi1.trans hi2⟩

theorem shiftInsRev_perm (kf : Nat → PDate) (vi : Nat) (acc : List Nat) :
    (shiftInsRev kf vi acc).Perm (vi :: acc) := by
  induction acc with
  | nil => rfl
  | cons j js ih =>
    rw [shiftInsRev]
    by_cases hc : dateLtB (kf vi) (kf j) = true
    · rw [if_pos hc]
      exact (ih.cons j).trans (List.Perm.swap vi j js)
    · rw [if_neg hc]

theorem shiftInsRev_pairwise (kf : Nat → PDate) (vi : Nat) (acc : List Nat)
    (hp : acc.Pairwise (fun a b => idxLex kf b a))
    (hb : ∀ j ∈ acc, j < vi) :
    (shiftInsRev kf vi acc).Pairwise (fun a b => idxLex kf b a) := by
  induction acc with
  | nil => simp [shiftInsRev]
  | cons j js ih =>
    rw [shiftInsRev]
    rw [List.pairwise_cons] at hp
    obtain ⟨hj, hjs⟩ := hp
    by_cases hc : dateLtB (kf vi) (kf j) = true
    · rw [if_pos hc]
      rw [List.pairwise_cons]
      constructor
      · intro x hx
        rcases List.mem_cons.mp ((shiftInsRev_perm kf vi js).mem_iff.mp hx) with rfl | hx2
        · exact Or.inl (dateLtB_iff.mp hc)
        · exact hj x hx2
      · exact ih hjs (fun x hx => hb x (List.mem_cons_of_mem j hx))
    · rw [if_neg hc]
      have hnlt : ¬ dateLt (kf vi) (kf j) := fun h => hc (dateLtB_iff.mpr h)
      have hjvi : idxLex kf j vi := by
        by_cases hlt : dateLt (kf j) (kf vi)
        · exact Or.inl hlt
        · exact Or.inr ⟨dateLt_connex hlt hnlt, hb j (List.mem_cons_self j js)⟩
      rw [List.pairwise_cons]
      constructor
      · intro x hx
        rcases List.mem_cons.mp hx with rfl | hx2
        · exact hjvi
        · exact idxLex_trans kf (hj x hx2) hjvi
      · rw [List.pairwise_cons]
        exact ⟨hj, hjs⟩

theorem foldl_shift_perm (kf : Nat → PDate) (l acc : List Nat) :
    (l.foldl (fun a vi => shiftInsRev kf vi a) acc).Perm (l ++ acc) := by
  induction l generalizing acc with
  | nil => simp
  | cons vi l ih =>
    rw [List.foldl_cons, List.cons_append]
    exact (ih _).trans
      ((List.Perm.append_left l (shiftInsRev_perm kf vi acc)).trans List.perm_middle)

theorem foldl_shift_pairwise (kf : Nat → PDate) (l : List Nat) :
    ∀ acc : List Nat, l.Pairwise (· < ·) →
    acc.Pairwise (fun a b => idxLex kf b a) →
    (∀ j ∈ acc, ∀ vi ∈ l, j < vi) →
    (l.foldl (fun a vi => shiftInsRev kf vi a) acc).Pairwise (fun a b => idxLex kf b a) := by
  induction l with
  | nil => intro acc _ hacc _; exact hacc
  | cons vi l ih =>
    intro acc hl hacc hb
    rw [List.foldl_cons]
    rw [List.pairwise_cons] at hl
    apply ih _ hl.2
    · exact shiftInsRev_pairwise kf vi acc hacc
        (fun j hj => hb j hj vi (List.mem_cons_self vi l))
    · intro j hj x hx
      rcases List.mem_cons.mp ((shiftInsRev_perm kf vi acc).mem_iff.mp hj) with rfl | hj2
      · exact hl.1 x hx
      · exact hb j hj2 x (List.mem_cons_of_mem vi hx)

theorem cInsertionSort_perm (kf : Nat → PDate) (l : List Nat) :
    (cInsertionSort kf l).Perm l := by
  unfold cInsertionSort
  have h1 := foldl_shift_perm kf l []
  rw [List.append_nil] at h1
  exact (List.reverse_perm _).trans h1

theorem cInsertionSort_pairwise (kf : Nat → PDate) (l : List Nat)
    (hl : l.Pairwise (· < ·)) :
    (cInsertionSort kf l).Pairwise (idxLex kf) := by
  unfold cInsertionSort
  rw [List.pairwise_reverse]
  exact foldl_shift_pairwise kf l [] hl (by simp) (by simp)

theorem np_argsort_small (kf : Nat → PDate) (n : Nat) (h : n ≤ 16) :
    np_argsort kf n = cInsertionSort kf (List.range n) := by
  unfold np_argsort
  show qsOuter kf (2 * n + 1 + 1) (List.range n) [] 0 (n - 1) (2 * (Nat.log2 n)) = _
  rw [qsOuter]
  rw [if_neg (show ¬ (n - 1 - 0 > 15) by omega)]
  show insSortSeg kf (List.range n) 0 (n - 1) = _
  unfold insSortSeg
  cases n with
  | zero => rfl
  | succ m =>
    simp only [List.take_zero, List.drop_zero, List.nil_append]
    rw [show m + 1 - 1 + 1 - 0 = m + 1 from by omega]
    rw [List.take_of_length_le (by simp), List.drop_eq_nil_of_le (by simp),
      List.append_nil]

theorem np_argsort_small_perm (kf : Nat → PDate) (n : Nat) (h : n ≤ 16) :
    (np_argsort kf n).Perm (List.range n) := by
  rw [np_argsort_small kf n h]
  exact cInsertionSort_perm kf _

theorem np_argsort_small_pairwise (kf : Nat → PDate) (n : Nat) (h : n ≤ 16) :
    (np_argsort kf n).Pairwise (idxLex kf) := by
  rw [np_argsort_small kf n h]
  exact cInsertionSort_pairwise kf _ (List.pairwise_lt_range n)

theorem plotDates_length (strict : String → Option PDate)
    (events : List (String × String)) (dated : List (PDate × String))
    (h : plotDates strict events = some dated) : dated.length = events.length := by
  induction events generalizing dated with
  | nil =>
    unfold plotDates at h
    simp only [List.mapM_nil, pure, Option.some.injEq] at h
    subst h
    rfl
  | cons e es ih =>
    unfold plotDates at h ih
    rw [List.mapM_cons] at h
    cases hx : (safe_date_conversion strict e.1).map (fun d => (d, e.2)) with
    | none => rw [hx] at h; simp at h
    | some p =>
      rw [hx] at h
      cases hes : es.mapM (fun e => (safe_date_conversion strict e.1).map (fun d => (d, e.2))) with
      | none => rw [hes] at h; simp at h
      | some ps =>
        rw [hes] at h
        simp only [Option.bind_eq_bind, Option.some_bind, pure, Option.some.injEq] at h
        subst h
        simp [ih ps hes]

/-- C4 counterexample: seventeen events all share the normalized date
1850-01-01, yet the layout emits their titles out of input order (for
instance "O" ahead of "N" though "N" precedes "O" in the input) — the
pandas default `kind='quicksort'` scrambles equal keys as soon as the
input outgrows the insertion-sort regime of 16 elements, so two events
with equal normalized dates need not keep their original relative order. -/
theorem C4_counterexample :
    (timeline strict0 ex17).isSome = true ∧
    ((timeline strict0 ex17).getD []).map (fun p => p.plot_date) =
      List.replicate 17 ⟨1850, 1, 1⟩ ∧
    ((timeline strict0 ex17).getD []).map (fun p => p.title) ≠
      ex17.map (fun e => e.2) ∧
    ((timeline strict0 ex17).getD []).map (fun p => p.title) =
      ["A", "O", "N", "M", "L", "K", "J", "P", "I",
       "G", "F", "E", "D", "C", "B", "H", "Q"] := by
  decide

/-- C4 (amended): for inputs of at most 16 events — where the introsort
never partitions and runs its stable insertion sort — the layout is
sorted ascending by normalized date and ties keep their original input
order (the sort permutation is lexicographically ordered by (date,
original position) and the emitted points are in nondecreasing date
order); for larger inputs stability fails (see the counterexample). -/
theorem C4_sorted_stable_small (strict : String → Option PDate)
    (events : List (String × String)) (dated : List (PDate × String))
    (pts : List TimelinePoint)
    (h16 : events.length ≤ 16)
    (hd : plotDates strict events = some dated)
    (ht : timeline strict events = some pts) :
    (timelineIdx dated).Perm (List.range events.length) ∧
    (timelineIdx dated).Pairwise (idxLex (dkey dated)) ∧
    pts.Pairwise (fun p q => ¬ dateLt q.plot_date p.plot_date) := by
  have hlen : dated.length = events.length := plotDates_length strict events dated hd
  have h16x : dated.length ≤ 16 := by omega
  have hperm : (timelineIdx dated).Perm (List.range dated.length) :=
    np_argsort_small_perm (dkey dated) dated.length h16x
  have hpw : (timelineIdx dated).Pairwise (idxLex (dkey dated)) :=
    np_argsort_small_pairwise (dkey dated) dated.length h16x
  refine ⟨by rw [← hlen]; exact hperm, hpw, ?_⟩
  unfold timeline at ht
  rw [hd] at ht
  simp only [Option.map_some'] at ht
  injection ht with ht
  subst ht
  have hplen : (timelineIdx dated).length = dated.length := by
    rw [hperm.length_eq, List.length_range]
  rw [List.pairwise_iff_getElem]
  intro a b ha hb hab
  rw [List.length_map, List.length_range] at ha hb
  rw [List.pairwise_iff_getElem] at hpw
  have hia := List.getD_eq_getElem (timelineIdx dated) 0 (by omega : a < (timelineIdx dated).length)
  have hib := List.getD_eq_getElem (timelineIdx dated) 0 (by omega : b < (timelineIdx dated).length)
  have hlex := hpw a b (by omega) (by omega) hab
  have hgoal : ¬ dateLt (dkey dated ((timelineIdx dated).getD b 0))
      (dkey dated ((timelineIdx dated).getD a 0)) := by
    rw [hia, hib]
    rcases hlex with hlt | ⟨heq, _⟩
    · exact dateLt_asymm hlt
    · rw [heq]
      exact dateLt_irrefl _
  simp only [List.getElem_map, List.getElem_range]
  exact hgoal

/-- Witness for C4 on two equal-dated events: the permutation is the
identity on `[0, 2)`, lexicographically ordered, and the two points come
out in nondecreasing date order. -/
theorem C4_sorted_stable_small_witness :
    (timelineIdx dated2).Perm (List.range events2.length) ∧
    (timelineIdx dated2).Pairwise (idxLex (dkey dated2)) ∧
    pts2.Pairwise (fun p q => ¬ dateLt q.plot_date p.plot_date) :=
  C4_sorted_stable_small strict0 events2 dated2 pts2 (by decide) (by decide) (by decide)
